import Mathlib

/-!
Verification of the MedBrief pipeline (Python sources under src/) against its
natural-language specification.  Python strings are embedded as lists of
characters (`Str`); dictionaries become structures; raised exceptions become
`Except` values; the file system becomes an explicit write trace.  Each
definition is a direct translation of the named source function.
-/

namespace MedBrief

/-- Python strings are modelled as lists of characters. -/
abbrev Str := List Char

/-- Coerce a Lean string literal into the `Str` model. -/
def str (s : String) : Str := s.toList

/-- Python `str.strip()`: remove leading and trailing whitespace. -/
def pyStrip (s : Str) : Str :=
  ((s.dropWhile Char.isWhitespace).reverse.dropWhile Char.isWhitespace).reverse

/-- Python `str.lower()` (ASCII case folding suffices for the keyword sets used). -/
def lowerStr (s : Str) : Str := s.map Char.toLower

/-- Python `needle in haystack` substring test. -/
def isSub (needle hay : Str) : Bool :=
  (List.range (hay.length + 1)).any fun i => needle.isPrefixOf (hay.drop i)

/-! ## src/tts/speech_generator.py — `SpeechGenerator._split_text_into_chunks`

The first loop of `_split_text_into_chunks` (lines 87-100): accumulate
characters into `current_sentence`; on `.`/`!`/`?` with non-empty stripped
accumulator, emit the stripped sentence and reset; finally emit the stripped
remainder if non-empty. -/

/-- Sentence-ending characters checked by the chunker (`['.', '!', '?']`). -/
def isSentenceEnd (c : Char) : Bool := c = '.' || c = '!' || c = '?'

/-- Loop of lines 90-100 of speech_generator.py: `text` remaining, `cur` is
`current_sentence` accumulated so far. -/
def splitSentencesGo : Str → Str → List Str
  | [], cur => if pyStrip cur ≠ [] then [pyStrip cur] else []
  | c :: rest, cur =>
    let cur2 := cur ++ [c]
    if isSentenceEnd c ∧ (pyStrip cur2).length > 0 then
      pyStrip cur2 :: splitSentencesGo rest []
    else
      splitSentencesGo rest cur2

/-- The sentence list produced by the first half of `_split_text_into_chunks`. -/
def splitSentences (text : Str) : List Str := splitSentencesGo text []

/-- Second loop of `_split_text_into_chunks` (lines 103-120): pack sentences
into chunks.  If adding the sentence would push `current_chunk` past
`maxLen`, flush the current chunk and start a new one with the sentence;
otherwise append it with a single joining space.  Note the length check
`len(current_chunk) + len(sentence) > max_chunk_length` does not count the
joining space that is then inserted. -/
def buildChunksGo (maxLen : Nat) : List Str → Str → List Str
  | [], cur => if cur ≠ [] then [cur] else []
  | s :: rest, cur =>
    if cur.length + s.length > maxLen then
      if cur ≠ [] then cur :: buildChunksGo maxLen rest s
      else buildChunksGo maxLen rest s
    else
      if cur ≠ [] then buildChunksGo maxLen rest (cur ++ ' ' :: s)
      else buildChunksGo maxLen rest s

/-- Embedding of `SpeechGenerator._split_text_into_chunks` (lines 76-123). -/
def splitTextIntoChunks (maxLen : Nat) (text : Str) : List Str :=
  buildChunksGo maxLen (splitSentences text) []

/-- Join a group of sentences with single spaces, the way `buildChunksGo`
builds a chunk (`current_chunk += " " + sentence`). -/
def joinSp : List Str → Str
  | [] => []
  | [g] => g
  | g :: gs => g ++ ' ' :: joinSp gs

/-- Specification-side mirror of `buildChunksGo` that keeps each chunk as the
list of sentences it was built from instead of the joined string. -/
def buildGroupsGo (maxLen : Nat) : List Str → List Str → List (List Str)
  | [], cur => if cur ≠ [] then [cur] else []
  | s :: rest, cur =>
    if (joinSp cur).length + s.length > maxLen then
      if cur ≠ [] then cur :: buildGroupsGo maxLen rest [s]
      else buildGroupsGo maxLen rest [s]
    else
      if cur ≠ [] then buildGroupsGo maxLen rest (cur ++ [s])
      else buildGroupsGo maxLen rest [s]

/-! ## src/ai_processing/vertex_ai.py — retry layer and key-takeaway parsing -/

/-- A raised Python exception, split by the only distinction the retry code
makes: `GoogleAPIError` (caught by the `except` clause) versus anything else. -/
inductive PyExn
  | googleApi (msg : Str)
  | other (msg : Str)
deriving DecidableEq

/-- Loop body of `VertexAI._retry_api_call` (lines 102-119).  `attempts k` is
the outcome of the `k`-th call of `func` (0-indexed); the second component of
the result is the list of `time.sleep` durations, in order.  `fuel` equals
`maxRetries - retries` (the number of loop iterations still allowed), so the
`fuel = 0` case is the `while` condition failing, which falls through to
`raise last_exception` (modelled as `.error last`). -/
def retryGo (attempts : Nat → Except PyExn α) (retryDelay maxRetries : Nat) :
    Option PyExn → Nat → Nat → Except (Option PyExn) α × List Nat
  | last, _, 0 => (.error last, [])
  | _, retries, fuel + 1 =>
    match attempts retries with
    | .ok v => (.ok v, [])
    | .error (.other m) => (.error (some (.other m)), [])
    | .error (.googleApi m) =>
      let retries2 := retries + 1
      if retries2 < maxRetries then
        let sleepTime := retryDelay * 2 ^ (retries2 - 1)
        let rest := retryGo attempts retryDelay maxRetries
          (some (.googleApi m)) retries2 fuel
        (rest.1, sleepTime :: rest.2)
      else
        (.error (some (.googleApi m)), [])

/-- Embedding of `VertexAI._retry_api_call` (lines 87-119): up to `maxRetries`
calls of `func`; a `GoogleAPIError` is recorded and retried after an
exponential-backoff sleep; any other exception escapes the `except` clause
immediately; after the last failed call the loop exits and the recorded
exception is re-raised. -/
def retryApiCall (attempts : Nat → Except PyExn α) (retryDelay maxRetries : Nat) :
    Except (Option PyExn) α × List Nat :=
  retryGo attempts retryDelay maxRetries none 0 maxRetries

/-- Embedding of `VertexAI.generate_text` (lines 121-160): the whole body sits
in `try: ... except Exception: return ""`, so any exception surfacing from
`_retry_api_call` — including the re-raised upstream error after retries are
exhausted — is swallowed and the empty string is returned instead.
In the source `max_retries = 3` and `retry_delay = 2` (lines 49-50). -/
def generateText (attempts : Nat → Except PyExn Str) : Str × List Nat :=
  match retryApiCall attempts 2 3 with
  | (.ok t, ss) => (t, ss)
  | (.error _, ss) => ([], ss)

/-- The character set of `line.lstrip('0123456789.- ')` in
`VertexAI.extract_key_takeaways` (line 278). -/
def lstripChars : Str := str "0123456789.- "

/-- One iteration of the parsing loop of `VertexAI.extract_key_takeaways`
(lines 274-280): strip the line; keep it when it is non-empty and starts with
a digit or with `"- "`; then remove the whole leading run of digits, periods,
hyphens and spaces, strip again, and keep the result only if non-empty. -/
def parseTakeawayLine (line : Str) : Option Str :=
  let l := pyStrip line
  if l ≠ [] ∧ ((l.headD ' ').isDigit ∨ (str "- ").isPrefixOf l) then
    let takeaway := pyStrip (l.dropWhile (fun c => lstripChars.contains c))
    if takeaway ≠ [] then some takeaway else none
  else none

/-- Embedding of the parsing half of `VertexAI.extract_key_takeaways`
(lines 272-290), applied to the generated `response`: split on newlines,
filter/strip each line, and truncate to `count` (`key_takeaways_count`) when
more were found.  When fewer were found the code only logs a warning. -/
def extractKeyTakeaways (count : Nat) (response : Str) : List Str :=
  let takeaways := (List.splitOn '\n' response).filterMap parseTakeawayLine
  if count < takeaways.length then takeaways.take count else takeaways

/-! ## src/youtube/uploader.py — `YouTubeUploader._upload_with_progress` -/

/-- Exceptions distinguished by `_upload_with_progress`: an `HttpError`
carrying a status code, or a network error
(`httplib2.HttpLib2Error` / `http.client.HTTPException`). -/
inductive UploadExn
  | http (status : Nat) (msg : Str)
  | network (msg : Str)
deriving DecidableEq

/-- The server-error statuses retried by `_upload_with_progress` (line 289). -/
def retryableStatuses : List Nat := [500, 502, 503, 504]

/-- Loop of `_upload_with_progress` (lines 281-313).  `next k` is the outcome
of the `k`-th `request.next_chunk()` call: `.ok none` is a progress chunk
(`response` still `None`), `.ok (some r)` completes the upload, `.error e` is
a raised exception.  `rng k` is the value drawn by `random.randint(1, 2 **
retry)` if the `k`-th call fails retryably (the theorems constrain it to that
range).  `fuel` bounds the number of `next_chunk` calls so the recursion is
total; `none` means the fuel ran out before the loop finished. -/
def uploadGo (next : Nat → Except UploadExn (Option Nat)) (rng : Nat → Nat)
    (maxRetries : Nat) :
    Nat → Nat → Nat → Option (Except UploadExn Nat × List Nat)
  | _, _, 0 => none
  | call, retry, fuel + 1 =>
    match next call with
    | .ok (some resp) => some (.ok resp, [])
    | .ok none => uploadGo next rng maxRetries (call + 1) retry fuel
    | .error (.http st m) =>
      if st ∈ retryableStatuses then
        if retry < maxRetries then
          match uploadGo next rng maxRetries (call + 1) (retry + 1) fuel with
          | none => none
          | some (r, ss) => some (r, rng call :: ss)
        else some (.error (.http st m), [])
      else some (.error (.http st m), [])
    | .error (.network m) =>
      if retry < maxRetries then
        match uploadGo next rng maxRetries (call + 1) (retry + 1) fuel with
        | none => none
        | some (r, ss) => some (r, rng call :: ss)
      else some (.error (.network m), [])

/-- Embedding of `YouTubeUploader._upload_with_progress` (lines 266-315), with
`max_retries = 10` as in the source (line 279). -/
def uploadWithProgress (next : Nat → Except UploadExn (Option Nat))
    (rng : Nat → Nat) (fuel : Nat) : Option (Except UploadExn Nat × List Nat) :=
  uploadGo next rng 10 0 0 fuel

/-! ## src/image_analysis/vision_ai.py — figure classification, scoring, selection -/

/-- The slice of a Vision AI `analysis_result` dictionary consumed by
`detect_image_type` and `calculate_importance_score`: the OCR'd full text
(`result["text"]`, `""` when absent) and the label descriptions
(`label["description"]` for each entry of `result["labels"]`). -/
structure AnalysisResult where
  text : Str
  labels : List Str
deriving DecidableEq

/-- The slice of a `figure_data` dictionary consumed by
`calculate_importance_score`: the caption (`figure_data.get("caption")`,
with `[]` playing the role of the falsy `None`/`""`). -/
structure FigureData where
  caption : Str
deriving DecidableEq

/-- The `chart_keywords` list of `detect_image_type` (line 204). -/
def chartKeywords : List Str :=
  [str "chart", str "graph", str "plot", str "diagram", str "axis",
   str "bar", str "pie", str "line"]

/-- The `table_keywords` list of `detect_image_type` (line 210). -/
def tableKeywords : List Str :=
  [str "table", str "grid", str "row", str "column", str "cell"]

/-- The `microscopy_keywords` list of `detect_image_type` (line 215). -/
def microscopyKeywords : List Str :=
  [str "microscopy", str "cell", str "tissue", str "histology",
   str "pathology", str "specimen"]

/-- The `medical_keywords` list of `calculate_importance_score` (lines 252-255). -/
def medicalKeywords : List Str :=
  [str "medical", str "clinical", str "health", str "patient",
   str "treatment", str "disease", str "therapy", str "diagnosis",
   str "prognosis", str "outcome", str "survival", str "mortality"]

/-- Does any label description contain (as a substring, Python `in`) any of
the keywords, after lowercasing — the pattern
`any(keyword in label["description"].lower() for keyword in kws)`. -/
def anyLabelMatch (kws : List Str) (labels : List Str) : Bool :=
  labels.any fun lab => kws.any fun k => isSub k (lowerStr lab)

/-- The classification returned by `detect_image_type`. -/
inductive ImageType
  | chart
  | table
  | microscopy
  | otherType
deriving DecidableEq

/-- Embedding of `VisionAI.detect_image_type` (lines 193-221): chart/graph
keywords are checked first against the labels, then table keywords against
the OCR'd text, then microscopy keywords against the labels; first match
wins, else `other`. -/
def detectImageType (a : AnalysisResult) : ImageType :=
  if anyLabelMatch chartKeywords a.labels then .chart
  else if tableKeywords.any fun k => isSub k (lowerStr a.text) then .table
  else if anyLabelMatch microscopyKeywords a.labels then .microscopy
  else .otherType

/-- Embedding of `VisionAI.calculate_importance_score` (lines 223-263),
with Python floats replaced by rationals: start at 0, add 0.3 for a truthy
caption, 0.2 for non-empty detected text, 0.3 for chart/table else 0.2 for
microscopy, and 0.1 once if any label matches the medical keyword set
(the loop breaks after the first match); finally clamp into [0, 1] via
`min(max(score, 0.0), 1.0)`. -/
def calculateImportanceScore (a : AnalysisResult) (f : FigureData) : ℚ :=
  let s0 : ℚ := 0
  let s1 := if f.caption ≠ [] then s0 + 3/10 else s0
  let s2 := if a.text ≠ [] then s1 + 2/10 else s1
  let t := detectImageType a
  let s3 :=
    if t = .chart ∨ t = .table then s2 + 3/10
    else if t = .microscopy then s2 + 2/10
    else s2
  let s4 := if anyLabelMatch medicalKeywords a.labels then s3 + 1/10 else s3
  min (max s4 0) 1

/-- A processed figure as fed to `select_top_figures`: its
`importance_score` (always set by `process_figures`, so the `.get` default 0
never fires) plus an opaque tag standing for the rest of the dictionary,
used to tell figures with equal scores apart. -/
structure ProcessedFigure where
  score : ℚ
  tag : Nat
deriving DecidableEq

/-- Insert `x` into a descending-sorted list after every element of greater
or equal score: the insertion step of a stable descending sort, the
behaviour Python's stable `sorted(..., reverse=True)` guarantees for the
call on line 284. -/
def insertDesc (x : ProcessedFigure) : List ProcessedFigure → List ProcessedFigure
  | [] => [x]
  | y :: ys => if y.score < x.score then x :: y :: ys else y :: insertDesc x ys

/-- Stable descending sort by `importance_score`, modelling
`sorted(qualified_figures, key=lambda x: x.get("importance_score", 0),
reverse=True)`: Python's sort is stable and `reverse=True` keeps equal
elements in their original order. -/
def sortDescStable (figs : List ProcessedFigure) : List ProcessedFigure :=
  figs.foldl (fun acc x => insertDesc x acc) []

/-- Embedding of `VisionAI.select_top_figures` (lines 265-294): filter by
`importance_score >= min_quality_score`, stable-sort descending by score,
take the first `max_figures`. -/
def selectTopFigures (maxFigures : Nat) (minScore : ℚ)
    (figs : List ProcessedFigure) : List ProcessedFigure :=
  let qualified := figs.filter fun f => minScore ≤ f.score
  let sortedFigs := sortDescStable qualified
  sortedFigs.take maxFigures

/-! ## src/tts/speech_generator.py — `synthesize_long_text` / `_combine_audio_files`

The file system relevant to these two functions is modelled as the list of
audio files that exist; paths are structured, mirroring
`os.path.join(output_dir, f"{output_filename}_chunk_{i}.mp3")` and
`os.path.join(output_dir, f"{output_filename}.mp3")`. -/

/-- An audio file path: either the per-chunk file `i` or the combined file. -/
inductive AudioPath
  | chunk (dir base : Str) (i : Nat)
  | combined (dir base : Str)
deriving DecidableEq

/-- A raised exception in the TTS layer (the message is irrelevant). -/
inductive TtsExn
  | exn (msg : Str)
deriving DecidableEq

/-- Embedding of `SpeechGenerator._combine_audio_files` (lines 220-253).
`loadOk p` models whether `AudioSegment.from_file(p)` (or the final export)
succeeds for chunk file `p`.  On an empty path list the function logs a
warning and returns without writing anything; otherwise it loads every file,
concatenates with 500 ms pauses and exports to `outPath` (one write), and any
exception is re-raised.  The result is the updated file list. -/
def combineAudioFiles (loadOk : AudioPath → Bool) (filePaths : List AudioPath)
    (outPath : AudioPath) (fs : List AudioPath) :
    Except TtsExn (List AudioPath) :=
  if filePaths = [] then .ok fs
  else if filePaths.all loadOk then .ok (fs ++ [outPath])
  else .error (.exn (str "error combining audio files"))

/-- Embedding of `SpeechGenerator.synthesize_long_text` (lines 174-218).
`synthOk i` models whether `synthesize_speech` succeeds on chunk `i`; a
failing chunk is logged and skipped (its path is not appended to
`chunk_paths`), a succeeding one writes its chunk file.  After combining,
the chunk files are removed and the combined path is returned — whether or
not the combining step actually created it. -/
def synthesizeLongText (synthOk : Nat → Bool) (loadOk : AudioPath → Bool)
    (maxChunkLen : Nat) (text : Str) (dir base : Str) (fs0 : List AudioPath) :
    Except TtsExn (AudioPath × List AudioPath) :=
  let chunks := splitTextIntoChunks maxChunkLen text
  let chunkPaths := ((List.range chunks.length).filter fun i => synthOk i).map
    fun i => AudioPath.chunk dir base i
  let fs1 := fs0 ++ chunkPaths
  let combinedPath := AudioPath.combined dir base
  match combineAudioFiles loadOk chunkPaths combinedPath fs1 with
  | .error e => .error e
  | .ok fs2 => .ok (combinedPath, fs2.filter fun p => p ∉ chunkPaths)

/-! ## src/pipeline/orchestrator.py — per-item pipeline and fan-out scheduler

Durable JSON writes are modelled as a trace of (path, content) pairs; a path
is its list of `os.path.join` segments.  Later writes to the same path shadow
earlier ones, mirroring `open(path, "w")` truncating the file.  Media files
(pdf, audio chunks, video) live under other names and are irrelevant to the
claims, so the trace records the JSON records only. -/

/-- A durable path, as the segments handed to `os.path.join`. -/
abbrev FilePath := List Str

/-- A paper dictionary, restricted to the keys the orchestrator reads:
`pmid`, `title`, `doi` (`""` when absent, which Python treats as falsy) and
`abstract`. -/
structure Paper where
  pmid : Str
  title : Str
  doi : Str
  abstract : Str
deriving DecidableEq

/-- The dictionary produced by `_download_and_process_pdf`. -/
structure PdfData where
  text : Str
  abstract : Str
  figures : List Nat
  tables : List Nat
deriving DecidableEq

/-- The dictionary produced by `_process_with_ai` / `VertexAI.process_paper`. -/
structure AiData where
  summary : Str
  narrationScript : Str
  keyTakeaways : List Str
  clinicalRelevance : Str
deriving DecidableEq

/-- The dictionary returned by `_upload_to_youtube`. -/
structure YtData where
  ytId : Str
  url : Str
deriving DecidableEq

/-- An exception raised inside a pipeline stage (`str(e)` is kept). -/
inductive StageExn
  | exn (msg : Str)
deriving DecidableEq

/-- The `str(e)` message of a stage exception. -/
def StageExn.msg : StageExn → Str
  | .exn m => m

/-- The JSON contents the orchestrator writes. -/
inductive Content
  | papersList (papers : List Paper)
  | paperData (p : Paper)
  | aiResult (a : AiData)
  | figuresResult (figs : List Nat)
  | resultRec (paperId title specialty videoPath videoUrl youtubeUrl
      youtubeId timestamp : Str)
  | errorRec (paperId title error timestamp : Str)
deriving DecidableEq

/-- Embedding of `Orchestrator._download_and_process_pdf` (lines 213-267).
`extractor` is the outcome of `pdf_extractor.process_pdf` on the dummy PDF
(`.error` models a raised exception; `_create_dummy_pdf` catches its own
errors internally, line 321-327).  A paper without a DOI skips extraction
and synthesizes the abstract-only result; every exception in the download
branch is caught and falls back to the same abstract-only result, so this
function as a whole never raises. -/
def downloadAndProcessPdf (extractor : Except StageExn PdfData)
    (paper : Paper) : PdfData :=
  if paper.doi = [] then
    { text := paper.abstract, abstract := paper.abstract,
      figures := [], tables := [] }
  else
    match extractor with
    | .ok d => d
    | .error _ =>
      { text := paper.abstract, abstract := paper.abstract,
        figures := [], tables := [] }

/-- The outcomes of the external effects of one `_process_paper` run, one
oracle per pipeline step; `.error e` models that step raising exception `e`.
`pdfExtract` feeds `_download_and_process_pdf` (whose own failure handling
makes step 1 total); the remaining steps are steps 2-7 of lines 150-178.
`now` is the `datetime.now().isoformat()` timestamp of this run. -/
structure ItemEnv where
  pdfExtract : Except StageExn PdfData
  ai : Except StageExn AiData
  figures : Except StageExn (List Nat)
  narration : Except StageExn Str
  video : Except StageExn Unit
  storage : Except StageExn Str
  youtube : Except StageExn YtData
  now : Str

/-- Does every fallible step of `_process_paper` succeed? -/
def itemSucceeds (env : ItemEnv) : Bool :=
  env.ai.isOk && env.figures.isOk && env.narration.isOk &&
  env.video.isOk && env.storage.isOk && env.youtube.isOk

/-- The path `paper_dir = os.path.join("output", specialty, paper_id)` (line 138). -/
def paperDir (specialty : Str) (paper : Paper) : FilePath :=
  [str "output", specialty, paper.pmid]

/-- Render a structured path the way `os.path.join` would. -/
def renderPath : FilePath → Str
  | [] => []
  | [g] => g
  | g :: gs => g ++ '/' :: renderPath gs

/-- The `error.json` write of the `except` block (lines 202-209). -/
def errorWrite (dir : FilePath) (paper : Paper) (e : StageExn) (now : Str) :
    FilePath × Content :=
  (dir ++ [str "error.json"], .errorRec paper.pmid paper.title e.msg now)

/-- Embedding of `Orchestrator._process_paper` (lines 122-211).  The first
component is what the call delivers to `future.result()` in the scheduler: a
normal return of the result dictionary, or the exception re-raised by the
`raise` in the `except` block (line 211) after `error.json` was written.
The second component is the ordered trace of durable JSON writes:
`paper_data.json` before the `try`, `ai_result.json` on step-2 success,
`figures_result.json` on step-3 success when the figure list is non-empty
(`_process_figures` returns early on an empty list, line 382-384), then
exactly one of `result.json` / `error.json`. -/
def processPaper (env : ItemEnv) (paper : Paper) (specialty : Str) :
    Except StageExn Content × List (FilePath × Content) :=
  let dir := paperDir specialty paper
  let w0 := [(dir ++ [str "paper_data.json"], Content.paperData paper)]
  let pdfData := downloadAndProcessPdf env.pdfExtract paper
  match env.ai with
  | .error e => (.error e, w0 ++ [errorWrite dir paper e env.now])
  | .ok ai =>
    let w1 := w0 ++ [(dir ++ [str "ai_result.json"], Content.aiResult ai)]
    match env.figures with
    | .error e => (.error e, w1 ++ [errorWrite dir paper e env.now])
    | .ok figs =>
      let w2 := if pdfData.figures = [] then w1
        else w1 ++ [(dir ++ [str "figures_result.json"], Content.figuresResult figs)]
      match env.narration with
      | .error e => (.error e, w2 ++ [errorWrite dir paper e env.now])
      | .ok _ =>
        match env.video with
        | .error e => (.error e, w2 ++ [errorWrite dir paper e env.now])
        | .ok _ =>
          match env.storage with
          | .error e => (.error e, w2 ++ [errorWrite dir paper e env.now])
          | .ok videoUrl =>
            match env.youtube with
            | .error e => (.error e, w2 ++ [errorWrite dir paper e env.now])
            | .ok yt =>
              let result := Content.resultRec paper.pmid paper.title specialty
                (renderPath (dir ++ [str "video", paper.pmid ++ str ".mp4"]))
                videoUrl yt.url yt.ytId env.now
              (.ok result, w2 ++ [(dir ++ [str "result.json"], result)])

/-- Embedding of `Orchestrator._process_specialty` (lines 80-120), restricted
to its durable effects.  The discovered papers are saved to
`output/<specialty>/<specialty>_papers.json`, then one `_process_paper` task
runs per paper; `for future in as_completed: try: future.result() except
Exception: log` discards each item's exception, so nothing an item raises
escapes this function (it is total) and no item's failure stops the others.
The items write to pairwise-disjoint directories, so recording their traces
in submission order is one linearization of the concurrent run and file
counts and per-path lookups are unaffected by the interleaving. -/
def processSpecialty (envOf : Paper → ItemEnv) (papers : List Paper)
    (specialty : Str) : List (FilePath × Content) :=
  ([str "output", specialty, specialty ++ str "_papers.json"],
    Content.papersList papers) ::
  papers.flatMap fun p => (processPaper (envOf p) p specialty).2

/-- Look up the current content at a path, the last write winning
(`open(path, "w")` truncates, so a later write fully replaces the content). -/
def fsLookup : List (FilePath × Content) → FilePath → Option Content
  | [], _ => none
  | w :: fs, p =>
    match fsLookup fs p with
    | some c => some c
    | none => if w.1 = p then some w.2 else none

/-- Is this write the terminal `result.json` record of some paper of the
given specialty?  (Terminal records live at depth 4:
`output/<specialty>/<pmid>/result.json`.) -/
def isResultWrite (specialty : Str) (w : FilePath × Content) : Bool :=
  match w.1 with
  | [o, s, _, f] => o = str "output" && s = specialty && f = str "result.json"
  | _ => false

/-- Is this write the terminal `error.json` record of some paper of the
given specialty? -/
def isErrorWrite (specialty : Str) (w : FilePath × Content) : Bool :=
  match w.1 with
  | [o, s, _, f] => o = str "output" && s = specialty && f = str "error.json"
  | _ => false

deriving instance DecidableEq for Except

/-- A service call that fails with a retryable upstream error on every
attempt. -/
def allFailAttempts : Nat → Except PyExn Str :=
  fun _ => .error (.googleApi (str "503 unavailable"))

/-- An upload whose first two `next_chunk` calls fail with a retryable 503
and whose third call completes. -/
def cexNext : Nat → Except UploadExn (Option Nat) :=
  fun k => if k < 2 then .error (.http 503 (str "server error")) else .ok (some 7)

/-- A possible draw of `random.randint(1, 2 ** retry)` for that run: 2 on
the first retry (range [1, 2]) and 1 on the second (range [1, 4]). -/
def cexRng : Nat → Nat :=
  fun k => if k = 0 then 2 else 1

/-- The terminal write of one `_process_paper` run: `result.json` holding the
result dictionary on success, `error.json` holding the error dictionary on
failure. -/
def terminalRecord (env : ItemEnv) (paper : Paper) (specialty : Str) :
    FilePath × Content :=
  (paperDir specialty paper ++
      [if itemSucceeds env then str "result.json" else str "error.json"],
    match (processPaper env paper specialty).1 with
    | .ok c => c
    | .error e => .errorRec paper.pmid paper.title e.msg env.now)

/-- C1 counterexample input: a paper whose cloud-storage upload stage
raises while everything else succeeds. -/
def successEnv : ItemEnv where
  pdfExtract := .ok
    { text := str "t", abstract := str "a", figures := [], tables := [] }
  ai := .ok
    { summary := str "s", narrationScript := str "n",
      keyTakeaways := [], clinicalRelevance := str "c" }
  figures := .ok []
  narration := .ok (str "narration.mp3")
  video := .ok ()
  storage := .ok (str "https-video-url")
  youtube := .ok { ytId := str "y1", url := str "https-yt-url" }
  now := str "2026-01-01T00:00:00"

/-- Like `successEnv` but the storage upload raises. -/
def storageFailEnv : ItemEnv :=
  { successEnv with storage := .error (.exn (str "bucket unreachable")) }

/-! ## Claim C8 — importance score bounds -/

/-- C8: for every combination of figure data and image-analysis result,
`calculate_importance_score` returns a value in [0, 1], obtained by
accumulating the caption (+0.3), detected-text (+0.2), chart/table (+0.3)
or microscopy (+0.2) and at-most-once medical-keyword (+0.1) bonuses from 0
and clamping; the accumulated value in fact never exceeds 0.9, so the upper
clamp is never exercised. -/
theorem calculateImportanceScore_bounds (a : AnalysisResult) (f : FigureData) :
    0 ≤ calculateImportanceScore a f ∧ calculateImportanceScore a f ≤ 1 ∧
    calculateImportanceScore a f ≤ 9/10 := by
  unfold calculateImportanceScore
  dsimp only
  split_ifs <;> norm_num

/-! ## Claim C6 — sentence-boundary chunking -/

/-- C6 counterexample: with maximum chunk length 5 and text `"ab.c."`, both
sentences (`"ab."`, `"c."`) fit the limit individually, yet the single
produced chunk `"ab. c."` has length 6 > 5: the length check ignores the
joining space it then inserts, so a chunk can exceed the configured maximum
even though no single sentence does. -/
theorem chunk_length_overshoot_cex :
    splitTextIntoChunks 5 (str "ab.c.") = [str "ab. c."] ∧
    (str "ab. c.").length = 6 ∧
    (∀ s ∈ splitSentences (str "ab.c."), s.length ≤ 5) := by
  refine ⟨by decide, by decide, by decide⟩

/-- Every sentence emitted by the sentence-splitting loop is non-empty. -/
theorem splitSentencesGo_ne_nil (text : Str) : ∀ cur : Str,
    ∀ s ∈ splitSentencesGo text cur, s ≠ [] := by
  induction text with
  | nil =>
    intro cur s hs
    unfold splitSentencesGo at hs
    split at hs
    · rename_i h
      simp only [List.mem_singleton] at hs
      simpa [hs] using h
    · simp at hs
  | cons c rest ih =>
    intro cur s hs
    simp only [splitSentencesGo] at hs
    split at hs
    · rename_i h
      rcases List.mem_cons.mp hs with h1 | h1
      · subst h1
        intro hnil
        rw [hnil] at h
        simp at h
      · exact ih [] s h1
    · exact ih _ s hs

/-- Every sentence of `splitSentences` is non-empty. -/
theorem splitSentences_ne_nil (text : Str) :
    ∀ s ∈ splitSentences text, s ≠ [] :=
  splitSentencesGo_ne_nil text []

/-- The value of `joinSp` on a cons with a non-empty tail. -/
theorem joinSp_cons_of_ne (g : Str) (gs : List Str) (h : gs ≠ []) :
    joinSp (g :: gs) = g ++ ' ' :: joinSp gs := by
  cases gs with
  | nil => exact absurd rfl h
  | cons h t => rfl

/-- Appending one more sentence to a non-empty group joins it with one
more space. -/
theorem joinSp_append_single (cur : List Str) (s : Str) (h : cur ≠ []) :
    joinSp (cur ++ [s]) = joinSp cur ++ ' ' :: s := by
  induction cur with
  | nil => exact absurd rfl h
  | cons g gs ih =>
    cases gs with
    | nil => rfl
    | cons g2 gs2 =>
      have hne : g2 :: gs2 ≠ [] := by simp
      rw [List.cons_append, joinSp_cons_of_ne _ _ (by simp),
        joinSp_cons_of_ne _ _ hne, ih hne]
      simp

/-- For a group whose sentences are all non-empty, the joined chunk is empty
iff the group is. -/
theorem joinSp_eq_nil_iff (cur : List Str) (h : ∀ s ∈ cur, s ≠ []) :
    joinSp cur = [] ↔ cur = [] := by
  cases cur with
  | nil => simp [joinSp]
  | cons g gs =>
    cases gs with
    | nil =>
      simp only [joinSp]
      simp [h g (by simp)]
    | cons g2 gs2 =>
      rw [joinSp_cons_of_ne _ _ (by simp)]
      simp

/-- Flattening the groups produced by `buildGroupsGo` recovers the pending
group followed by the remaining sentences. -/
theorem buildGroupsGo_flatten (maxLen : Nat) (ss : List Str) :
    ∀ cur : List Str, (buildGroupsGo maxLen ss cur).flatten = cur ++ ss := by
  induction ss with
  | nil =>
    intro cur
    unfold buildGroupsGo
    split <;> simp_all
  | cons s rest ih =>
    intro cur
    unfold buildGroupsGo
    split
    · split
      · simpa using ih [s]
      · simp_all [ih [s]]
    · split
      · simpa using ih (cur ++ [s])
      · simp_all [ih [s]]

/-- The chunks built by `buildChunksGo` from a pending chunk `joinSp cur` are
exactly the joins of the groups built by `buildGroupsGo` from `cur`, provided
all sentences involved are non-empty. -/
theorem buildChunksGo_eq_groups (maxLen : Nat) (ss : List Str)
    (hss : ∀ s ∈ ss, s ≠ []) :
    ∀ cur : List Str, (∀ s ∈ cur, s ≠ []) →
      buildChunksGo maxLen ss (joinSp cur) =
        (buildGroupsGo maxLen ss cur).map joinSp := by
  induction ss with
  | nil =>
    intro cur hcur
    unfold buildChunksGo buildGroupsGo
    by_cases hc : cur = []
    · simp [hc, joinSp]
    · simp [hc, (joinSp_eq_nil_iff cur hcur).ne.mpr hc]
  | cons s rest ih =>
    intro cur hcur
    have hs : s ≠ [] := hss s (by simp)
    have hrest : ∀ t ∈ rest, t ≠ [] := fun t ht => hss t (by simp [ht])
    have hone : buildChunksGo maxLen rest s =
        (buildGroupsGo maxLen rest [s]).map joinSp := by
      simpa [joinSp] using ih hrest [s] (by simpa using hs)
    have happ : ∀ t ∈ cur ++ [s], t ≠ [] := by
      intro t ht
      rcases List.mem_append.mp ht with h1 | h1
      · exact hcur t h1
      · simpa [List.mem_singleton.mp h1] using hs
    have hiff : (joinSp cur ≠ []) ↔ (cur ≠ []) :=
      not_congr (joinSp_eq_nil_iff cur hcur)
    simp only [buildChunksGo, buildGroupsGo, hiff]
    split_ifs with h1 h2 h3
    · simp [hone]
    · exact hone
    · rw [← joinSp_append_single cur s h3]
      exact ih hrest (cur ++ [s]) happ
    · exact hone

/-- Every chunk emitted by `buildChunksGo` is within one character of the
maximum, or is a single input sentence, or is the pending chunk it started
with. -/
theorem buildChunksGo_length (maxLen : Nat) (ss : List Str) :
    ∀ cur : Str, ∀ chunk ∈ buildChunksGo maxLen ss cur,
      chunk.length ≤ maxLen + 1 ∨ chunk ∈ ss ∨ chunk = cur := by
  induction ss with
  | nil =>
    intro cur chunk hc
    unfold buildChunksGo at hc
    split at hc
    · simp only [List.mem_singleton] at hc
      exact Or.inr (Or.inr hc)
    · simp at hc
  | cons s rest ih =>
    intro cur chunk hc
    unfold buildChunksGo at hc
    split at hc
    · split at hc
      · rcases List.mem_cons.mp hc with h1 | h1
        · exact Or.inr (Or.inr h1)
        · rcases ih s chunk h1 with h | h | h
          · exact Or.inl h
          · exact Or.inr (Or.inl (by simp [h]))
          · exact Or.inr (Or.inl (by simp [h]))
      · rcases ih s chunk hc with h | h | h
        · exact Or.inl h
        · exact Or.inr (Or.inl (by simp [h]))
        · exact Or.inr (Or.inl (by simp [h]))
    · rename_i hfit
      push_neg at hfit
      split at hc
      · rename_i hcur
        rcases ih _ chunk hc with h | h | h
        · exact Or.inl h
        · exact Or.inr (Or.inl (by simp [h]))
        · refine Or.inl ?_
          rw [h]
          simp only [List.length_append, List.length_cons]
          omega
      · rcases ih s chunk hc with h | h | h
        · exact Or.inl h
        · exact Or.inr (Or.inl (by simp [h]))
        · exact Or.inr (Or.inl (by simp [h]))

/-- C6 (amended): `_split_text_into_chunks` splits only at sentence
boundaries — the chunks are, in order, space-joins of consecutive groups of
the sentence sequence, so concatenating them while ignoring the injected
separators reconstructs the original sentence sequence — and no chunk
exceeds the configured maximum by more than the single injected separator
character (length ≤ maxLen + 1), unless a single sentence alone forms the
chunk (in which case it may be arbitrarily long). -/
theorem splitTextIntoChunks_amended (maxLen : Nat) (text : Str) :
    ∃ groups : List (List Str),
      groups.flatten = splitSentences text ∧
      splitTextIntoChunks maxLen text = groups.map joinSp ∧
      ∀ chunk ∈ splitTextIntoChunks maxLen text,
        chunk.length ≤ maxLen + 1 ∨ chunk ∈ splitSentences text := by
  refine ⟨buildGroupsGo maxLen (splitSentences text) [], ?_, ?_, ?_⟩
  · simpa using buildGroupsGo_flatten maxLen (splitSentences text) []
  · have := buildChunksGo_eq_groups maxLen (splitSentences text)
      (splitSentences_ne_nil text) [] (by simp)
    simpa [splitTextIntoChunks, joinSp] using this
  · intro chunk hc
    rcases buildChunksGo_length maxLen (splitSentences text) [] chunk hc
      with h | h | h
    · exact Or.inl h
    · exact Or.inr h
    · exact Or.inl (by simp [h])

/-! ## Claim C9 — key-takeaway parsing -/

/-- C9 counterexample: `lstrip('0123456789.- ')` removes the whole leading
run of digits, periods, hyphens and spaces, not just the list marker — on
the line `"1. 2020 vaccine trial"` the content's leading `"2020 "` is eaten
too, producing `"vaccine trial"` instead of `"2020 vaccine trial"`; and a
marker-only line such as `"1."` strips to empty and is dropped rather than
kept. -/
theorem takeaway_parsing_cex :
    extractKeyTakeaways 5 (str "1. 2020 vaccine trial") = [str "vaccine trial"] ∧
    extractKeyTakeaways 5 (str "1. 2020 vaccine trial") ≠ [str "2020 vaccine trial"] ∧
    extractKeyTakeaways 3 (str "1.") = [] := by
  refine ⟨by decide, by decide, by decide⟩

/-- A parsed takeaway is never empty. -/
theorem parseTakeawayLine_ne_nil (line t : Str)
    (h : parseTakeawayLine line = some t) : t ≠ [] := by
  simp only [parseTakeawayLine] at h
  split at h
  · split at h
    · rename_i hne
      obtain rfl := Option.some.inj h
      exact hne
    · exact absurd h (by simp)
  · exact absurd h (by simp)

/-- C9 (amended): the parser keeps exactly the lines accepted by
`parseTakeawayLine` — lines that, once stripped, are non-empty, start with a
digit or with `"- "`, and remain non-empty after the whole leading run of
characters from `'0123456789.- '` is removed (so leading numeric content can
be eaten along with the marker, and marker-only lines are dropped).  The
output is the first `count` of those items: its length is
`min count (number found)`, truncated to exactly `count` when more were
found and equal to the number found (no padding) when fewer were. -/
theorem extractKeyTakeaways_amended (count : Nat) (response : Str) :
    extractKeyTakeaways count response =
      ((List.splitOn '\n' response).filterMap parseTakeawayLine).take count ∧
    (extractKeyTakeaways count response).length =
      min count ((List.splitOn '\n' response).filterMap parseTakeawayLine).length ∧
    ∀ t ∈ extractKeyTakeaways count response,
      t ≠ [] ∧ ∃ line ∈ List.splitOn '\n' response,
        parseTakeawayLine line = some t := by
  have heq : extractKeyTakeaways count response =
      ((List.splitOn '\n' response).filterMap parseTakeawayLine).take count := by
    simp only [extractKeyTakeaways]
    split
    · rfl
    · rename_i hle
      push_neg at hle
      exact (List.take_of_length_le hle).symm
  refine ⟨heq, ?_, ?_⟩
  · rw [heq, List.length_take]
  · intro t ht
    rw [heq] at ht
    have hmem : t ∈ (List.splitOn '\n' response).filterMap parseTakeawayLine :=
      (List.take_sublist _ _).mem ht
    obtain ⟨line, hline, hp⟩ := List.mem_filterMap.mp hmem
    exact ⟨parseTakeawayLine_ne_nil line t hp, line, hline, hp⟩

/-! ## Claim C4 — failures after retry exhaustion are swallowed by generate_text -/

/-- C4 counterexample: when every attempt fails, `_retry_api_call` does
re-raise the last upstream error (`.error`), but `generate_text` catches it
and returns normally with the empty string — a substitute result — after the
two backoff sleeps (2 s, 4 s).  The failure therefore does not surface to
the caller and is not fatal to the stage. -/
theorem generateText_swallows_cex :
    (retryApiCall allFailAttempts 2 3).1 =
      .error (some (.googleApi (str "503 unavailable"))) ∧
    generateText allFailAttempts = ([], [2, 4]) := by
  refine ⟨by decide, by decide⟩

/-- C4 (amended): if every one of the 3 attempts fails with a
`GoogleAPIError`, `_retry_api_call` raises the exception of the last (third)
attempt, but `generate_text` swallows it and returns the empty string, so
the text-generation stage continues with an empty substitute instead of
failing. -/
theorem generateText_returns_empty_after_retries
    (attempts : Nat → Except PyExn Str)
    (h : ∀ k, ∃ m, attempts k = .error (.googleApi m)) :
    (∃ m, (retryApiCall attempts 2 3).1 = .error (some (.googleApi m)) ∧
      attempts 2 = .error (.googleApi m)) ∧
    (generateText attempts).1 = [] := by
  obtain ⟨m0, h0⟩ := h 0
  obtain ⟨m1, h1⟩ := h 1
  obtain ⟨m2, h2⟩ := h 2
  have hretry : retryApiCall attempts 2 3 =
      (.error (some (.googleApi m2)), [2, 4]) := by
    simp [retryApiCall, retryGo, h0, h1, h2]
  refine ⟨⟨m2, by rw [hretry], h2⟩, ?_⟩
  simp [generateText, hretry]

/-- Witness for `generateText_returns_empty_after_retries` at the
all-failing oracle. -/
theorem generateText_returns_empty_after_retries_witness :
    (∃ m, (retryApiCall allFailAttempts 2 3).1 = .error (some (.googleApi m)) ∧
      allFailAttempts 2 = .error (.googleApi m)) ∧
    (generateText allFailAttempts).1 = [] :=
  generateText_returns_empty_after_retries allFailAttempts
    (fun _ => ⟨str "503 unavailable", rfl⟩)

/-! ## Claim C5 — retry counts and backoff schedules -/

/-- C5 counterexample: the upload path sleeps `random.randint(1, 2 **
retry)` seconds, not `base_delay * 2 ** (attempt - 1)`.  The run above is a
possible execution (each drawn value is within randint's range), sleeps
[2, 1], and no base delay whatsoever makes [2, 1] match the claimed
deterministic schedule `[d * 2 ^ 0, d * 2 ^ 1]`. -/
theorem upload_backoff_cex :
    uploadWithProgress cexNext cexRng 5 = some (.ok 7, [2, 1]) ∧
    (1 ≤ cexRng 0 ∧ cexRng 0 ≤ 2 ^ 1) ∧
    (1 ≤ cexRng 1 ∧ cexRng 1 ≤ 2 ^ 2) ∧
    ∀ d : Nat, ¬([2, 1] = [d * 2 ^ 0, d * 2 ^ 1]) := by
  refine ⟨by decide, by decide, by decide, ?_⟩
  intro d h
  simp only [List.cons.injEq, and_true] at h
  omega

/-- C5 (amended): AI calls make at most 3 attempts and sleep exactly
`retry_delay * 2 ^ (attempt - 1)` before each of the (at most two) retries;
upload calls retry a retryable server error up to 10 times (so up to 11
attempts), sleeping the value drawn by `random.randint(1, 2 ** retry)`
before each retry, and a non-retryable `HttpError` status propagates
immediately with no retry and no sleep. -/
theorem retry_policy_amended (d : Nat) (attempts : Nat → Except PyExn Str)
    (hAi : ∀ k, ∃ m, attempts k = .error (.googleApi m))
    (next : Nat → Except UploadExn (Option Nat)) (rng : Nat → Nat)
    (st : Nat) (m1 m2 : Str)
    (hSt : st ∉ retryableStatuses) (hNext0 : next 0 = .error (.http st m1))
    (upNext : Nat → Except UploadExn (Option Nat))
    (hUp : ∀ k, upNext k = .error (.http 503 m2)) (fuel : Nat) :
    (retryApiCall attempts d 3).2 = [d * 2 ^ 0, d * 2 ^ 1] ∧
    (retryApiCall attempts d 3).1.isOk = false ∧
    uploadWithProgress next rng (fuel + 1) = some (.error (.http st m1), []) ∧
    uploadWithProgress upNext rng 11 =
      some (.error (.http 503 m2),
        [rng 0, rng 1, rng 2, rng 3, rng 4, rng 5, rng 6, rng 7, rng 8, rng 9]) := by
  obtain ⟨g0, h0⟩ := hAi 0
  obtain ⟨g1, h1⟩ := hAi 1
  obtain ⟨g2, h2⟩ := hAi 2
  have hstb : st ∈ retryableStatuses ↔ False := by simp [hSt]
  have hr : retryApiCall attempts d 3 =
      (.error (some (.googleApi g2)), [d * 2 ^ 0, d * 2 ^ 1]) := by
    simp [retryApiCall, retryGo, h0, h1, h2]
  refine ⟨?_, ?_, ?_, ?_⟩
  · rw [hr]
  · rw [hr]
    rfl
  · simp [uploadWithProgress, uploadGo, hNext0, hstb]
  · simp [uploadWithProgress, uploadGo, hUp, retryableStatuses]

/-- Witness for `retry_policy_amended` at concrete oracles. -/
theorem retry_policy_amended_witness :
    (retryApiCall allFailAttempts 2 3).2 = [2 * 2 ^ 0, 2 * 2 ^ 1] ∧
    (retryApiCall allFailAttempts 2 3).1.isOk = false ∧
    uploadWithProgress (fun _ => .error (.http 403 (str "forbidden"))) cexRng
      (4 + 1) = some (.error (.http 403 (str "forbidden")), []) ∧
    uploadWithProgress (fun _ => .error (.http 503 (str "server error"))) cexRng
      11 = some (.error (.http 503 (str "server error")),
        [cexRng 0, cexRng 1, cexRng 2, cexRng 3, cexRng 4, cexRng 5, cexRng 6,
          cexRng 7, cexRng 8, cexRng 9]) :=
  retry_policy_amended 2 allFailAttempts
    (fun _ => ⟨str "503 unavailable", rfl⟩)
    (fun _ => .error (.http 403 (str "forbidden"))) cexRng 403
    (str "forbidden") (str "server error") (by decide) rfl
    (fun _ => .error (.http 503 (str "server error"))) (fun _ => rfl) 4

/-! ## Claim C7 — top-figure selection -/

/-- Membership in an insertion. -/
theorem mem_insertDesc (x a : ProcessedFigure) (l : List ProcessedFigure) :
    a ∈ insertDesc x l ↔ a = x ∨ a ∈ l := by
  induction l with
  | nil => simp [insertDesc]
  | cons y ys ih =>
    simp only [insertDesc]
    split_ifs with h
    · simp [List.mem_cons]
    · simp only [List.mem_cons, ih]
      tauto

/-- Inserting preserves descending sortedness. -/
theorem pairwise_insertDesc (x : ProcessedFigure) (l : List ProcessedFigure)
    (hl : l.Pairwise fun a b => b.score ≤ a.score) :
    (insertDesc x l).Pairwise fun a b => b.score ≤ a.score := by
  induction l with
  | nil => simp [insertDesc]
  | cons y ys ih =>
    rw [List.pairwise_cons] at hl
    simp only [insertDesc]
    split_ifs with h
    · refine List.pairwise_cons.mpr ⟨?_, List.pairwise_cons.mpr hl⟩
      intro b hb
      rcases List.mem_cons.mp hb with h1 | h1
      · exact le_of_lt (h1 ▸ h)
      · exact le_trans (hl.1 b h1) (le_of_lt h)
    · refine List.pairwise_cons.mpr ⟨?_, ih hl.2⟩
      intro b hb
      rcases (mem_insertDesc x b ys).mp hb with h1 | h1
      · exact h1 ▸ not_lt.mp h
      · exact hl.1 b h1

/-- Elements of every item of a descending-sorted list headed by `y` score at
most `y`. -/
theorem sorted_head_ge (y : ProcessedFigure) (ys : List ProcessedFigure)
    (h : (y :: ys).Pairwise fun a b => b.score ≤ a.score) :
    ∀ z ∈ y :: ys, z.score ≤ y.score := by
  intro z hz
  rcases List.mem_cons.mp hz with h1 | h1
  · exact le_of_eq (congrArg ProcessedFigure.score h1)
  · exact (List.pairwise_cons.mp h).1 z h1

/-- Stability of one insertion: on a descending-sorted list, the elements of
any fixed score keep their order, with `x` appended after its equals. -/
theorem filter_insertDesc (x : ProcessedFigure) (l : List ProcessedFigure)
    (v : ℚ) (hl : l.Pairwise fun a b => b.score ≤ a.score) :
    (insertDesc x l).filter (fun f => decide (f.score = v)) =
      if x.score = v then
        l.filter (fun f => decide (f.score = v)) ++ [x]
      else
        l.filter (fun f => decide (f.score = v)) := by
  induction l with
  | nil =>
    simp only [insertDesc, List.filter]
    split_ifs with h <;> simp [h]
  | cons y ys ih =>
    rw [List.pairwise_cons] at hl
    simp only [insertDesc]
    split_ifs with h hx
    · -- y.score < x.score and x.score = v: nothing at score v remains below
      have hnone : (y :: ys).filter (fun f => decide (f.score = v)) = [] := by
        rw [List.filter_eq_nil_iff]
        intro a ha
        have : a.score ≤ y.score :=
          sorted_head_ge y ys (List.pairwise_cons.mpr hl) a ha
        simp only [decide_eq_true_eq]
        intro hav
        rw [hav, ← hx] at this
        exact absurd (lt_of_lt_of_le h this) (lt_irrefl _)
      rw [List.filter_cons_of_pos (by simpa using hx), hnone]
      simp [hx]
    · -- y.score < x.score and x.score ≠ v: x is filtered out
      rw [List.filter_cons_of_neg (by simpa using hx)]
    · -- x goes past y
      rename_i hx2
      by_cases hy : y.score = v
      · rw [List.filter_cons_of_pos (by simpa using hy),
          List.filter_cons_of_pos (by simpa using hy), ih hl.2]
        simp [hx2]
      · rw [List.filter_cons_of_neg (by simpa using hy),
          List.filter_cons_of_neg (by simpa using hy), ih hl.2]
        simp [hx2]
    · rename_i hx2
      by_cases hy : y.score = v
      · rw [List.filter_cons_of_pos (by simpa using hy),
          List.filter_cons_of_pos (by simpa using hy), ih hl.2]
        simp [hx2]
      · rw [List.filter_cons_of_neg (by simpa using hy),
          List.filter_cons_of_neg (by simpa using hy), ih hl.2]
        simp [hx2]

/-- The fold underlying `sortDescStable` keeps sorted accumulators sorted. -/
theorem pairwise_foldl_insertDesc (l acc : List ProcessedFigure)
    (hacc : acc.Pairwise fun a b => b.score ≤ a.score) :
    (l.foldl (fun a x => insertDesc x a) acc).Pairwise
      fun a b => b.score ≤ a.score := by
  induction l generalizing acc with
  | nil => simpa using hacc
  | cons x xs ih =>
    simp only [List.foldl_cons]
    exact ih (insertDesc x acc) (pairwise_insertDesc x acc hacc)

/-- The result of `sortDescStable` is sorted by non-increasing score. -/
theorem sortDescStable_sorted (l : List ProcessedFigure) :
    (sortDescStable l).Pairwise fun a b => b.score ≤ a.score :=
  pairwise_foldl_insertDesc l [] (by simp)

/-- Membership is preserved by the stable sort. -/
theorem mem_sortDescStable (a : ProcessedFigure) (l : List ProcessedFigure) :
    a ∈ sortDescStable l ↔ a ∈ l := by
  suffices h : ∀ acc, a ∈ l.foldl (fun ac x => insertDesc x ac) acc ↔
      a ∈ acc ∨ a ∈ l by
    simpa [sortDescStable] using h []
  induction l with
  | nil => simp
  | cons x xs ih =>
    intro acc
    simp only [List.foldl_cons, ih (insertDesc x acc), mem_insertDesc,
      List.mem_cons]
    tauto

/-- Stability of the whole sort: elements of any fixed score keep their
original relative order. -/
theorem filter_sortDescStable (l : List ProcessedFigure) (v : ℚ) :
    (sortDescStable l).filter (fun f => decide (f.score = v)) =
      l.filter (fun f => decide (f.score = v)) := by
  suffices h : ∀ acc, acc.Pairwise (fun a b => b.score ≤ a.score) →
      (l.foldl (fun ac x => insertDesc x ac) acc).filter
          (fun f => decide (f.score = v)) =
        acc.filter (fun f => decide (f.score = v)) ++
          l.filter (fun f => decide (f.score = v)) by
    simpa [sortDescStable] using h [] (by simp)
  induction l with
  | nil => intro acc hacc; simp
  | cons x xs ih =>
    intro acc hacc
    simp only [List.foldl_cons]
    rw [ih (insertDesc x acc) (pairwise_insertDesc x acc hacc),
      filter_insertDesc x acc v hacc, List.filter_cons]
    split_ifs with h1 h2 h3
    · simp
    · exact absurd (by simpa using h1) h2
    · exact absurd (by simpa using h3) h1
    · simp

/-- C7: `select_top_figures` returns at most `max_figures` figures, never one
whose score is below `min_quality_score`, sorted by non-increasing
importance score; and it is stable — for every score value, the selected
figures with that score form a sublist (hence keep the relative order) of
the input figures with that score. -/
theorem selectTopFigures_spec (maxFigures : Nat) (minScore : ℚ)
    (figs : List ProcessedFigure) :
    (selectTopFigures maxFigures minScore figs).length ≤ maxFigures ∧
    (∀ f ∈ selectTopFigures maxFigures minScore figs, minScore ≤ f.score) ∧
    (selectTopFigures maxFigures minScore figs).Pairwise
      (fun a b => b.score ≤ a.score) ∧
    ∀ v : ℚ,
      ((selectTopFigures maxFigures minScore figs).filter
        (fun f => decide (f.score = v))).Sublist
      (figs.filter fun f => decide (f.score = v)) := by
  refine ⟨?_, ?_, ?_, ?_⟩
  · simp [selectTopFigures]
  · intro f hf
    have hmem : f ∈ sortDescStable (figs.filter fun g => decide (minScore ≤ g.score)) :=
      (List.take_sublist _ _).mem hf
    have := (mem_sortDescStable f _).mp hmem
    simpa using (List.mem_filter.mp this).2
  · exact List.Pairwise.sublist (List.take_sublist _ _) (sortDescStable_sorted _)
  · intro v
    have h1 : ((selectTopFigures maxFigures minScore figs).filter
        (fun f => decide (f.score = v))).Sublist
        ((sortDescStable (figs.filter fun g => decide (minScore ≤ g.score))).filter
          (fun f => decide (f.score = v))) :=
      List.Sublist.filter _ (List.take_sublist _ _)
    rw [filter_sortDescStable] at h1
    refine h1.trans ?_
    have h3 : List.filter (fun f => decide (f.score = v))
        (List.filter (fun f => decide (minScore ≤ f.score)) figs) =
        List.filter (fun f => decide (minScore ≤ f.score))
          (List.filter (fun f => decide (f.score = v)) figs) := by
      rw [List.filter_filter, List.filter_filter]
      exact List.filter_congr fun x _ => Bool.and_comm _ _
    rw [h3]
    exact List.filter_sublist _

/-! ## Claim C10 — synthesize_long_text returns a path it never created -/

/-- C10: when the input text is empty (no chunks) or every per-chunk
synthesis attempt fails (no chunk paths), `_combine_audio_files` takes its
early return — writing nothing and raising nothing — yet
`synthesize_long_text` still returns the combined output path while the
file set is exactly what it was before: the returned path refers to a file
that was never created. -/
theorem synthesizeLongText_ghost_path (synthOk : Nat → Bool)
    (loadOk : AudioPath → Bool) (maxChunkLen : Nat) (text : Str)
    (dir base : Str) (fs0 : List AudioPath)
    (h : text = [] ∨
      ∀ i < (splitTextIntoChunks maxChunkLen text).length, synthOk i = false) :
    synthesizeLongText synthOk loadOk maxChunkLen text dir base fs0 =
      .ok (AudioPath.combined dir base, fs0) := by
  have hempty : (List.range (splitTextIntoChunks maxChunkLen text).length).filter
      (fun i => synthOk i) = [] := by
    rcases h with h | h
    · subst h
      rfl
    · rw [List.filter_eq_nil_iff]
      intro i hi
      simp [h i (List.mem_range.mp hi)]
  have hkeep : fs0.filter (fun p => decide (p ∉ ([] : List AudioPath))) = fs0 := by
    rw [List.filter_eq_self]
    intro a _
    simp
  simp [synthesizeLongText, hempty, combineAudioFiles, hkeep]

/-- Witness for `synthesizeLongText_ghost_path` on the empty text. -/
theorem synthesizeLongText_ghost_path_witness :
    synthesizeLongText (fun _ => false) (fun _ => true) 50 [] (str "audio")
        (str "narration") [] =
      .ok (AudioPath.combined (str "audio") (str "narration"), []) :=
  synthesizeLongText_ghost_path (fun _ => false) (fun _ => true) 50 []
    (str "audio") (str "narration") [] (Or.inl rfl)

/-! ## Claim C3 — no-DOI extraction fallback -/

/-- C3: for a document record without a DOI the extraction step skips binary
extraction and synthesizes an abstract-only `ExtractionResult` — text and
abstract both equal the record's abstract, figures and tables empty.  The
step is a total function (every exception inside it is caught and falls back
to the same result), so it never raises; and any `error.json` ever written
by `_process_paper` for such a paper is attributable to one of the later
stages, never to extraction. -/
theorem extraction_noDoi_fallback (extractor : Except StageExn PdfData)
    (paper : Paper) (h : paper.doi = []) :
    downloadAndProcessPdf extractor paper =
      { text := paper.abstract, abstract := paper.abstract,
        figures := [], tables := [] } ∧
    ∀ env : ItemEnv, ∀ specialty : Str, ∀ e : StageExn,
      (processPaper env paper specialty).1 = .error e →
      env.ai = .error e ∨ env.figures = .error e ∨ env.narration = .error e ∨
        env.video = .error e ∨ env.storage = .error e ∨
        env.youtube = .error e := by
  constructor
  · simp [downloadAndProcessPdf, h]
  · intro env specialty e herr
    obtain ⟨pdf, ai, figs, narr, vid, stor, yt, now⟩ := env
    cases ai <;> cases figs <;> cases narr <;> cases vid <;> cases stor <;>
      cases yt <;> simp_all [processPaper]

/-- Witness for `extraction_noDoi_fallback` on a concrete paper without a
DOI and a failing extractor. -/
theorem extraction_noDoi_fallback_witness :
    downloadAndProcessPdf (.error (.exn (str "boom")))
        { pmid := str "12345", title := str "T", doi := [],
          abstract := str "Background." } =
      { text := str "Background.", abstract := str "Background.",
        figures := [], tables := [] } :=
  (extraction_noDoi_fallback (.error (.exn (str "boom")))
    { pmid := str "12345", title := str "T", doi := [],
      abstract := str "Background." } rfl).1

/-! ## Claims C1/C2 — terminal records and fan-out isolation -/

/-- The last write to a path wins. -/
theorem fsLookup_concat (l : List (FilePath × Content)) (w : FilePath × Content) :
    fsLookup (l ++ [w]) w.1 = some w.2 := by
  induction l with
  | nil => simp [fsLookup]
  | cons x xs ih => simp [fsLookup, ih]

set_option maxHeartbeats 3200000 in
/-- Case analysis over every way one `_process_paper` run can end: the write
trace always ends with the terminal record, contains exactly one
`result.json` write (iff every stage succeeded) and exactly one `error.json`
write (iff some stage failed) for this paper, and its only writes matching
the specialty's terminal-record patterns are that one terminal write. -/
theorem processPaper_writes_facts (env : ItemEnv) (paper : Paper)
    (specialty : Str) :
    (processPaper env paper specialty).2 =
      (processPaper env paper specialty).2.dropLast ++
        [terminalRecord env paper specialty] ∧
    (processPaper env paper specialty).2.countP
        (fun w => decide (w.1 = paperDir specialty paper ++ [str "result.json"])) =
      (if itemSucceeds env then 1 else 0) ∧
    (processPaper env paper specialty).2.countP
        (fun w => decide (w.1 = paperDir specialty paper ++ [str "error.json"])) =
      (if itemSucceeds env then 0 else 1) ∧
    (processPaper env paper specialty).2.countP (isResultWrite specialty) =
      (if itemSucceeds env then 1 else 0) ∧
    (processPaper env paper specialty).2.countP (isErrorWrite specialty) =
      (if itemSucceeds env then 0 else 1) ∧
    ((processPaper env paper specialty).2.filter
        (fun w => isResultWrite specialty w || isErrorWrite specialty w)).map
      (fun w => w.1) =
      [(terminalRecord env paper specialty).1] := by
  obtain ⟨pdf, ai, figs, narr, vid, stor, yt, now⟩ := env
  by_cases hf : (downloadAndProcessPdf pdf paper).figures = [] <;>
    cases ai <;> cases figs <;> cases narr <;> cases vid <;> cases stor <;>
    cases yt <;>
    simp +decide [processPaper, terminalRecord, itemSucceeds, errorWrite,
      paperDir, isResultWrite, isErrorWrite, hf, StageExn.msg, Except.isOk, Except.toBool]

/-- C2: each `_process_paper` run writes exactly one terminal record under
`output/<specialty>/<pmid>/` — `result.json` iff every stage succeeded,
`error.json` iff some stage failed, never both — and because the file is
opened in overwrite mode, the content found at the terminal path afterwards
is exactly this run's record regardless of whatever any earlier run had
stored there (no append, no merge). -/
theorem processPaper_unique_terminal_record (env : ItemEnv) (paper : Paper)
    (specialty : Str) :
    (processPaper env paper specialty).2.countP
        (fun w => decide (w.1 = paperDir specialty paper ++ [str "result.json"])) =
      (if itemSucceeds env then 1 else 0) ∧
    (processPaper env paper specialty).2.countP
        (fun w => decide (w.1 = paperDir specialty paper ++ [str "error.json"])) =
      (if itemSucceeds env then 0 else 1) ∧
    (terminalRecord env paper specialty).1 =
      paperDir specialty paper ++
        [if itemSucceeds env then str "result.json" else str "error.json"] ∧
    ∀ fs : List (FilePath × Content),
      fsLookup (fs ++ (processPaper env paper specialty).2)
          (terminalRecord env paper specialty).1 =
        some (terminalRecord env paper specialty).2 := by
  obtain ⟨hshape, hrc, hec, _, _, _⟩ := processPaper_writes_facts env paper specialty
  refine ⟨hrc, hec, rfl, ?_⟩
  intro fs
  conv_lhs => rw [hshape]
  rw [← List.append_assoc]
  exact fsLookup_concat _ _

/-- The per-specialty write trace restricted to terminal records is exactly
one terminal record per submitted paper, in order. -/
theorem processSpecialty_terminal_writes (envOf : Paper → ItemEnv)
    (specialty : Str) : ∀ papers : List Paper,
    (((papers.flatMap fun p => (processPaper (envOf p) p specialty).2).filter
        (fun w => isResultWrite specialty w || isErrorWrite specialty w)).map
      (fun w => w.1)) =
      papers.map (fun p => (terminalRecord (envOf p) p specialty).1) := by
  intro papers
  induction papers with
  | nil => rfl
  | cons p ps ih =>
    rw [List.flatMap_cons, List.filter_append, List.map_append, ih,
      (processPaper_writes_facts (envOf p) p specialty).2.2.2.2.2]
    rfl

/-- Counting helper over the fan-out trace. -/
theorem processSpecialty_countP (envOf : Paper → ItemEnv) (specialty : Str)
    (pred : FilePath × Content → Bool) (score : Paper → Nat)
    (hitem : ∀ p : Paper,
      (processPaper (envOf p) p specialty).2.countP pred = score p) :
    ∀ papers : List Paper,
    (papers.flatMap fun p => (processPaper (envOf p) p specialty).2).countP pred =
      (papers.map score).sum := by
  intro papers
  induction papers with
  | nil => rfl
  | cons p ps ih =>
    rw [List.flatMap_cons, List.countP_append, ih, hitem p, List.map_cons,
      List.sum_cons]

/-- Summing per-item 1/0 indicators counts the succeeding items. -/
theorem sum_ite_one (b : Paper → Bool) : ∀ papers : List Paper,
    (papers.map fun p => if b p then 1 else 0).sum = papers.countP b := by
  intro papers
  induction papers with
  | nil => rfl
  | cons p ps ih =>
    simp only [List.map_cons, List.sum_cons, List.countP_cons, ih]
    cases h : b p <;> simp [h, Nat.add_comm]

/-- Summing per-item 0/1 indicators counts the failing items. -/
theorem sum_ite_zero (b : Paper → Bool) : ∀ papers : List Paper,
    (papers.map fun p => if b p then 0 else 1).sum =
      papers.countP fun p => !b p := by
  intro papers
  induction papers with
  | nil => rfl
  | cons p ps ih =>
    simp only [List.map_cons, List.sum_cons, List.countP_cons, ih]
    cases h : b p <;> simp [h, Nat.add_comm]

/-- C1 counterexample: a failing stage is caught and `error.json` is written,
but `_process_paper` then executes `raise` (line 211), so the exception does
propagate to the Fan-Out Scheduler — it is what `future.result()` delivers
(here for a concrete paper whose storage upload fails).  The scheduler's own
`try/except` around `future.result()` is what keeps it from going further. -/
theorem processPaper_reraises_cex :
    (processPaper storageFailEnv
        { pmid := str "p1", title := str "T1", doi := [],
          abstract := str "A1" } (str "cardiology")).1 =
      .error (.exn (str "bucket unreachable")) ∧
    (processPaper storageFailEnv
        { pmid := str "p1", title := str "T1", doi := [],
          abstract := str "A1" } (str "cardiology")).2.countP
      (isErrorWrite (str "cardiology")) = 1 := by
  refine ⟨by decide, by decide⟩

/-- C1 (amended): a failure in one item's pipeline is caught, converted to a
durably written `error.json`, and re-raised; the Fan-Out Scheduler catches
each item's exception at `future.result()` and only logs it, so no failure
escapes the scheduler (its embedding is a total function) and the remaining
items all run to completion: the trace holds exactly one `result.json` write
per succeeding item and exactly one `error.json` write per failing item, at
pairwise-distinct paths when the document identities are distinct. -/
theorem processSpecialty_isolation (envOf : Paper → ItemEnv)
    (papers : List Paper) (specialty : Str)
    (hnd : (papers.map Paper.pmid).Nodup) :
    (processSpecialty envOf papers specialty).countP (isResultWrite specialty) =
      (papers.countP fun p => itemSucceeds (envOf p)) ∧
    (processSpecialty envOf papers specialty).countP (isErrorWrite specialty) =
      (papers.countP fun p => !itemSucceeds (envOf p)) ∧
    (((processSpecialty envOf papers specialty).filter
        (fun w => isResultWrite specialty w || isErrorWrite specialty w)).map
      (fun w => w.1)).Nodup := by
  have hhead : ∀ pred : FilePath × Content → Bool,
      pred ([str "output", specialty, specialty ++ str "_papers.json"],
        Content.papersList papers) = false →
      (processSpecialty envOf papers specialty).countP pred =
        (papers.flatMap fun p => (processPaper (envOf p) p specialty).2).countP
          pred := by
    intro pred hp
    simp [processSpecialty, List.countP_cons, hp]
  refine ⟨?_, ?_, ?_⟩
  · rw [hhead _ (by rfl), processSpecialty_countP envOf specialty _
      (fun p => if itemSucceeds (envOf p) then 1 else 0)
      (fun p => (processPaper_writes_facts (envOf p) p specialty).2.2.2.1),
      sum_ite_one]
  · rw [hhead _ (by rfl), processSpecialty_countP envOf specialty _
      (fun p => if itemSucceeds (envOf p) then 0 else 1)
      (fun p => (processPaper_writes_facts (envOf p) p specialty).2.2.2.2.1),
      sum_ite_zero]
  · have hfilter : (processSpecialty envOf papers specialty).filter
        (fun w => isResultWrite specialty w || isErrorWrite specialty w) =
        (papers.flatMap fun p => (processPaper (envOf p) p specialty).2).filter
          (fun w => isResultWrite specialty w || isErrorWrite specialty w) := by
      simp only [processSpecialty, List.filter_cons]
      have h1 : isResultWrite specialty
          ([str "output", specialty, specialty ++ str "_papers.json"],
            Content.papersList papers) = false := rfl
      have h2 : isErrorWrite specialty
          ([str "output", specialty, specialty ++ str "_papers.json"],
            Content.papersList papers) = false := rfl
      simp [h1, h2]
    rw [hfilter, processSpecialty_terminal_writes envOf specialty papers]
    have hmapmap : (papers.map fun p =>
        (terminalRecord (envOf p) p specialty).1).map
          (fun path => path.getD 2 []) = papers.map Paper.pmid := by
      rw [List.map_map]
      rfl
    exact List.Nodup.of_map (fun path => path.getD 2 [])
      (by rw [hmapmap]; exact hnd)

/-- Witness for `processSpecialty_isolation`: 5 documents with distinct
identities, the third failing at its storage stage — 4 `result.json` writes,
1 `error.json` write, all at distinct paths. -/
theorem processSpecialty_isolation_witness :
    ((processSpecialty
        (fun p => if p.pmid = str "p3" then storageFailEnv else successEnv)
        [{ pmid := str "p1", title := str "T1", doi := [], abstract := str "A1" },
         { pmid := str "p2", title := str "T2", doi := [], abstract := str "A2" },
         { pmid := str "p3", title := str "T3", doi := [], abstract := str "A3" },
         { pmid := str "p4", title := str "T4", doi := [], abstract := str "A4" },
         { pmid := str "p5", title := str "T5", doi := [], abstract := str "A5" }]
        (str "cardiology")).countP (isResultWrite (str "cardiology")) =
      ([{ pmid := str "p1", title := str "T1", doi := [], abstract := str "A1" },
         { pmid := str "p2", title := str "T2", doi := [], abstract := str "A2" },
         { pmid := str "p3", title := str "T3", doi := [], abstract := str "A3" },
         { pmid := str "p4", title := str "T4", doi := [], abstract := str "A4" },
         { pmid := str "p5", title := str "T5", doi := [], abstract := str "A5" }]
        : List Paper).countP fun p =>
          itemSucceeds (if p.pmid = str "p3" then storageFailEnv else successEnv)) ∧
    (([{ pmid := str "p1", title := str "T1", doi := [], abstract := str "A1" },
       { pmid := str "p2", title := str "T2", doi := [], abstract := str "A2" },
       { pmid := str "p3", title := str "T3", doi := [], abstract := str "A3" },
       { pmid := str "p4", title := str "T4", doi := [], abstract := str "A4" },
       { pmid := str "p5", title := str "T5", doi := [], abstract := str "A5" }]
      : List Paper).countP fun p =>
        itemSucceeds (if p.pmid = str "p3" then storageFailEnv else successEnv)) = 4 :=
  ⟨(processSpecialty_isolation
      (fun p => if p.pmid = str "p3" then storageFailEnv else successEnv)
      [{ pmid := str "p1", title := str "T1", doi := [], abstract := str "A1" },
       { pmid := str "p2", title := str "T2", doi := [], abstract := str "A2" },
       { pmid := str "p3", title := str "T3", doi := [], abstract := str "A3" },
       { pmid := str "p4", title := str "T4", doi := [], abstract := str "A4" },
       { pmid := str "p5", title := str "T5", doi := [], abstract := str "A5" }]
      (str "cardiology") (by decide)).1, by decide⟩

end MedBrief
